import Mathlib

/-!
Verification of the Twitter video/image upload service.

The development shallowly embeds the service's core logic:

* the base64 encoding used by `Buffer.toString('base64')` together with an
  explicit decoder (the spec speaks of "undoing the per-chunk base64
  encoding"), with a round-trip theorem;
* the chunked APPEND loop of `uploadVideo` and the single APPEND of
  `uploadImage`;
* the processing-status poll loop `waitForMediaProcessing`;
* the top-level rate-limit retry loop `uploadToTwitter`;
* the byte-source resolution of `performUpload`;
* credential validation in the constructor and in per-call signing
  (`validateCredential`);
* the inbound HTTP controller `uploadToTwitter` of
  `twitter-video-uploader.controller.ts`, including its temp-file effects.

Machine integers do not overflow in any of the modelled code paths (byte
values are 0..255, sizes and times are far below 2^53), so bytes, sizes and
milliseconds are modelled as `Nat`.
-/

namespace TwitterUpload

/-! ## Base64 (RFC 4648 with padding, as produced by Buffer.toString) -/

/-- The standard base64 alphabet. -/
def b64Alphabet : List Char :=
  "ABCDEFGHIJKLMNOPQRSTUVWXYZabcdefghijklmnopqrstuvwxyz0123456789+/".toList

/-- Character for a sextet value (callers only use values below 64). -/
def sextToChar (s : Nat) : Char := b64Alphabet.getD s 'A'

/-- Sextet value of an alphabet character; `none` for characters outside the
alphabet (in particular for the padding character). -/
def charToSext (c : Char) : Option Nat :=
  if b64Alphabet.indexOf c < b64Alphabet.length then some (b64Alphabet.indexOf c) else none

/-- Base64 encoding of a byte list: three bytes become four characters,
trailing groups of one or two bytes are padded with the padding character,
exactly as Node's `Buffer.toString('base64')` does. -/
def b64EncodeBytes : List Nat → List Char
  | [] => []
  | [a] =>
    [sextToChar (a * 16 / 64), sextToChar (a * 16 % 64), '=', '=']
  | [a, b] =>
    [sextToChar ((a * 1024 + b * 4) / 4096), sextToChar ((a * 1024 + b * 4) / 64 % 64),
     sextToChar ((a * 1024 + b * 4) % 64), '=']
  | a :: b :: c :: rest =>
    sextToChar ((a * 65536 + b * 256 + c) / 262144) ::
    sextToChar ((a * 65536 + b * 256 + c) / 4096 % 64) ::
    sextToChar ((a * 65536 + b * 256 + c) / 64 % 64) ::
    sextToChar ((a * 65536 + b * 256 + c) % 64) ::
    b64EncodeBytes rest

/-- Base64 decoding, the inverse of `b64EncodeBytes` ("undoing" the encoding);
`none` on malformed input. -/
def b64DecodeChars : List Char → Option (List Nat)
  | [] => some []
  | c0 :: c1 :: c2 :: c3 :: rest =>
    match charToSext c0, charToSext c1 with
    | some s0, some s1 =>
      if c2 = '=' then
        if c3 = '=' ∧ rest = [] then some [(s0 * 64 + s1) / 16] else none
      else
        match charToSext c2 with
        | some s2 =>
          if c3 = '=' then
            if rest = [] then
              some [(s0 * 4096 + s1 * 64 + s2) / 1024, (s0 * 4096 + s1 * 64 + s2) / 4 % 256]
            else none
          else
            match charToSext c3, b64DecodeChars rest with
            | some s3, some tl =>
              some ((s0 * 262144 + s1 * 4096 + s2 * 64 + s3) / 65536 ::
                    (s0 * 262144 + s1 * 4096 + s2 * 64 + s3) / 256 % 256 ::
                    (s0 * 262144 + s1 * 4096 + s2 * 64 + s3) % 256 :: tl)
            | _, _ => none
        | none => none
    | _, _ => none
  | _ => none

/-! ## The chunked APPEND loop of uploadVideo and the single APPEND of uploadImage -/

/-- 5 MiB, the constant `chunkSize = 5 * 1024 * 1024` of `uploadVideo`. -/
def chunkSize : Nat := 5 * 1024 * 1024

/-- One APPEND request body: `{command: 'APPEND', media_id, segment_index,
media}` (the constant `command` field is omitted). -/
structure AppendCall where
  media_id : String
  segment_index : Nat
  media : List Char
deriving DecidableEq, Repr

/-- The APPEND loop of `uploadVideo`:
`for (let i = 0; i < fileSize; i += chunkSize)` sends
`fileData.slice(i, i + chunkSize).toString('base64')` with the running
`segmentIndex`, which starts at 0 and is incremented after every call.
Because `i` advances by `chunkSize ≥ 1` per iteration, the remaining
iteration count is bounded by `fileSize - i`; the recursion is driven by a
fuel parameter dominating that bound (the entry point passes `fileSize`),
making every run of the source loop a finite unfolding of this definition. -/
def appendLoop (mediaId : String) (fileData : List Nat) (fileSize : Nat) :
    Nat → Nat → Nat → List AppendCall
  | 0, _, _ => []
  | fuel + 1, i, segmentIndex =>
    if i < fileSize then
      { media_id := mediaId, segment_index := segmentIndex,
        media := b64EncodeBytes ((fileData.drop i).take chunkSize) } ::
        appendLoop mediaId fileData fileSize fuel (i + chunkSize) (segmentIndex + 1)
    else []

/-- The raw (pre-base64) chunks visited by the same loop:
`fileData.slice(i, i + chunkSize)` for `i = 0, chunkSize, 2*chunkSize, …`,
with the same fuel discipline as `appendLoop`. -/
def chunkLoop (fileData : List Nat) (fileSize : Nat) : Nat → Nat → List (List Nat)
  | 0, _ => []
  | fuel + 1, i =>
    if i < fileSize then
      (fileData.drop i).take chunkSize :: chunkLoop fileData fileSize fuel (i + chunkSize)
    else []

/-- All APPEND calls issued by `uploadVideo` for a file whose bytes are
`fileData` (`fileSize = fileData.length`: both come from the same file). -/
def videoAppendCalls (mediaId : String) (fileData : List Nat) : List AppendCall :=
  appendLoop mediaId fileData fileData.length fileData.length 0 0

/-- The single APPEND call issued by `uploadImage`: segment index 0 and the
whole file as one base64 payload, regardless of the file's size. -/
def imageAppendCalls (mediaId : String) (fileData : List Nat) : List AppendCall :=
  [{ media_id := mediaId, segment_index := 0, media := b64EncodeBytes fileData }]

/-! ## The processing-status poll loop waitForMediaProcessing -/

/-- `processing_info.state` values of a STATUS response. -/
inductive ProcState
  | pending
  | in_progress
  | succeeded
  | failed
deriving DecidableEq, Repr

/-- A STATUS response as far as the loop inspects it: `processing_info?.state`
and `processing_info?.check_after_secs`, either of which may be absent. -/
structure MediaStatus where
  state : Option ProcState
  check_after_secs : Option Nat
deriving DecidableEq, Repr

/-- `MAX_ATTEMPTS = 10` in `waitForMediaProcessing`. -/
def MAX_ATTEMPTS : Nat := 10

/-- `MAX_PROCESSING_TIME = 5 * 60 * 1000` milliseconds. -/
def MAX_PROCESSING_TIME : Nat := 5 * 60 * 1000

/-- `check_after_secs || 2` with JavaScript truthiness: both an absent field
and the (falsy) value 0 fall back to 2 seconds. -/
def checkAfterOrDefault : Option Nat → Nat
  | none => 2
  | some 0 => 2
  | some k => k

/-- How a run of `waitForMediaProcessing` ends: normal return on a succeeded
state, the time-limit error, or the max-attempts error after the loop. -/
inductive PollOutcome
  | success
  | timeExceeded
  | attemptsExhausted
deriving DecidableEq, Repr

/-- One iteration of `while (attempts < MAX_ATTEMPTS)` per fuel unit
(`fuel = MAX_ATTEMPTS - attempts`): issue STATUS number `attempt` (the k-th
response is `resp k`, the call takes `dur k` milliseconds); return on a
succeeded state; otherwise throw the time-limit error if more than
`MAX_PROCESSING_TIME` has elapsed since `startTime`; otherwise sleep
`min (check_after_secs || 2) 30` seconds and continue. The second component
collects the elapsed time at which each STATUS call was issued. -/
def pollLoop (resp : Nat → MediaStatus) (dur : Nat → Nat) :
    Nat → Nat → Nat → PollOutcome × List Nat
  | 0, _, _ => (PollOutcome.attemptsExhausted, [])
  | fuel + 1, attempt, elapsed =>
    if (resp attempt).state = some ProcState.succeeded then
      (PollOutcome.success, [elapsed])
    else if elapsed + dur attempt > MAX_PROCESSING_TIME then
      (PollOutcome.timeExceeded, [elapsed])
    else
      ((pollLoop resp dur fuel (attempt + 1)
          (elapsed + dur attempt +
            min (checkAfterOrDefault (resp attempt).check_after_secs) 30 * 1000)).1,
        elapsed ::
        (pollLoop resp dur fuel (attempt + 1)
          (elapsed + dur attempt +
            min (checkAfterOrDefault (resp attempt).check_after_secs) 30 * 1000)).2)

/-- `waitForMediaProcessing`: the poll loop started with `attempts = 0` at
`startTime` (elapsed 0), with fuel for its `MAX_ATTEMPTS` iterations. -/
def waitForMediaProcessing (resp : Nat → MediaStatus) (dur : Nat → Nat) :
    PollOutcome × List Nat :=
  pollLoop resp dur MAX_ATTEMPTS 0 0

/-! ## The top-level rate-limit retry loop uploadToTwitter (service) -/

/-- Outcome of one `performUpload` attempt as the retry loop classifies it:
success, an HTTP 429 response, or any other error. -/
inductive AttemptOutcome
  | ok (tweetId : String)
  | rateLimited
  | otherError (msg : String)
deriving DecidableEq, Repr

/-- Result of the whole `uploadToTwitter` service call. -/
inductive UploadResult
  | success (tweetId : String)
  | failure (msg : String)
deriving DecidableEq, Repr

/-- `MAX_RETRIES = 3` in the service's `uploadToTwitter`. -/
def MAX_RETRIES : Nat := 3

/-- `while (retryCount < MAX_RETRIES)` with fuel `MAX_RETRIES - retryCount`:
a successful attempt returns its result, a 429 increments the counter and
continues, any other error is rethrown immediately; when the loop exits the
max-retries error is thrown. The second component counts the `performUpload`
attempts actually made. -/
def retryLoop (attempts : Nat → AttemptOutcome) : Nat → Nat → UploadResult × Nat
  | 0, _ => (UploadResult.failure "Max retries exceeded during Twitter upload", 0)
  | fuel + 1, retryCount =>
    match attempts retryCount with
    | AttemptOutcome.ok r => (UploadResult.success r, 1)
    | AttemptOutcome.otherError m => (UploadResult.failure m, 1)
    | AttemptOutcome.rateLimited =>
      ((retryLoop attempts fuel (retryCount + 1)).1,
        (retryLoop attempts fuel (retryCount + 1)).2 + 1)

/-- The service's `uploadToTwitter` retry behaviour: start at `retryCount = 0`
with room for `MAX_RETRIES` attempts. -/
def uploadToTwitterModel (attempts : Nat → AttemptOutcome) : UploadResult × Nat :=
  retryLoop attempts MAX_RETRIES 0

/-! ## Byte-source resolution in performUpload -/

/-- The image extension list of `isImageFile`. -/
def imageExtensions : List String :=
  [".jpg", ".jpeg", ".png", ".gif", ".bmp", ".webp"]

/-- The basename of a path: everything after the last slash. -/
def basenameOfChars (p : List Char) : List Char :=
  (p.reverse.takeWhile (fun c => c ≠ '/')).reverse

/-- `path.extname`: the extension of the basename starting at its last dot;
a dot at the very start of the basename does not begin an extension. -/
def extnameOfChars (p : List Char) : List Char :=
  if ((basenameOfChars p).drop 1).contains '.' then
    '.' :: ((basenameOfChars p).reverse.takeWhile (fun c => c ≠ '.')).reverse
  else []

/-- `path.extname(filePath).toLowerCase()`. -/
def extnameLower (p : String) : String :=
  String.mk ((extnameOfChars p.toList).map Char.toLower)

/-- `isImageFile`: does the lower-cased extension appear in the image list. -/
def isImageFile (p : String) : Bool :=
  imageExtensions.contains (extnameLower p)

/-- `options.mimeType ? options.mimeType.startsWith('image/') :
this.isImageFile(filePathOrUrl)`; an empty mime string is falsy in
JavaScript and falls through to the extension check. -/
def resolveIsImage (filePathOrUrl : String) (mimeType : Option String) : Bool :=
  match mimeType with
  | some m => if m = "" then isImageFile filePathOrUrl else m.startsWith "image/"
  | none => isImageFile filePathOrUrl

/-- Where the upload state machine gets its bytes from. The second
constructor expresses the spec's download-first expectation; the code-derived
`performUploadSource` below never produces it. -/
inductive MediaSource
  | localRead (p : String)
  | downloadedThenRead (url : String) (tmp : String)
deriving DecidableEq, Repr

/-- Does a string designate a remote URL (http or https). -/
def isRemoteUrl (s : String) : Bool :=
  List.isPrefixOf "http://".toList s.toList || List.isPrefixOf "https://".toList s.toList

/-- `performUpload`'s resolution of its byte source: both `uploadImage` and
`uploadVideo` start with `if (!fs.existsSync(filePath)) throw` and then
`fs.readFileSync(filePath)` on the string they were handed — `performUpload`
passes `filePathOrUrl` to them unchanged and never invokes
`downloadVideoFromUrl`. `fileExists` models `fs.existsSync`; the returned
flag is `isImageUpload`. -/
def performUploadSource (fileExists : String → Bool) (filePathOrUrl : String)
    (mimeType : Option String) : Except String (MediaSource × Bool) :=
  if fileExists filePathOrUrl then
    Except.ok (MediaSource.localRead filePathOrUrl, resolveIsImage filePathOrUrl mimeType)
  else
    Except.error ("File not found: " ++ filePathOrUrl)

/-! ## Credential validation: constructor versus per-call signing -/

/-- The four OAuth secrets as the config service supplies them; a missing
environment variable shows up as `none`, and an empty string is falsy for
`if (!credential)`. -/
structure TwitterConfig where
  consumerKey : Option String
  consumerSecret : Option String
  accessToken : Option String
  accessTokenSecret : Option String
deriving DecidableEq, Repr

/-- `validateCredential`: `configService.get` followed by
`if (!credential) throw new Error('Missing credential: ' + path)`. -/
def validateCredential (credentialPath : String) (v : Option String) : Except String String :=
  match v with
  | none => Except.error ("Missing credential: " ++ credentialPath)
  | some s =>
    if s = "" then Except.error ("Missing credential: " ++ credentialPath)
    else Except.ok s

/-- The OAuth signer the constructor builds from the consumer pair. -/
structure OAuthSigner where
  consumerKey : String
  consumerSecret : String
deriving DecidableEq, Repr

/-- The service constructor: validates `twitter.consumerKey` and
`twitter.consumerSecret` only, then constructs the signer. -/
def mkService (cfg : TwitterConfig) : Except String OAuthSigner :=
  match validateCredential "twitter.consumerKey" cfg.consumerKey with
  | Except.error e => Except.error e
  | Except.ok ck =>
    match validateCredential "twitter.consumerSecret" cfg.consumerSecret with
    | Except.error e => Except.error e
    | Except.ok cs => Except.ok { consumerKey := ck, consumerSecret := cs }

/-- The access-token lookup performed at the start of every signing call
(`uploadVideo`, `uploadImage`, `checkMediaStatus`, `createTweet` each call
`validateCredential('twitter.accessToken')` and
`validateCredential('twitter.accessTokenSecret')` anew). -/
def perCallTokenLookup (cfg : TwitterConfig) : Except String (String × String) :=
  match validateCredential "twitter.accessToken" cfg.accessToken with
  | Except.error e => Except.error e
  | Except.ok tok =>
    match validateCredential "twitter.accessTokenSecret" cfg.accessTokenSecret with
    | Except.error e => Except.error e
    | Except.ok sec => Except.ok (tok, sec)

/-- Is a credential present and truthy. -/
def credPresent : Option String → Bool
  | none => false
  | some s => decide (s ≠ "")

/-! ## The inbound controller uploadToTwitter -/

/-- The fields of an uploaded multipart file that the controller inspects. -/
structure MulterFile where
  originalname : String
  mimetype : String
deriving DecidableEq, Repr

/-- An inbound request: optional `videoUrl` body field and optional uploaded
file (`tweetText` and `replyToTweetId` are passed through unexamined and are
omitted). -/
structure InboundRequest where
  videoUrl : Option String
  file : Option MulterFile
deriving DecidableEq, Repr

/-- JavaScript truthiness of an optional string: absent and empty are falsy. -/
def jsTruthyStr : Option String → Bool
  | none => false
  | some s => decide (s ≠ "")

/-- The controller's allowed upload MIME types. -/
def allowedMimeTypes : List String :=
  ["video/mp4", "video/quicktime", "image/jpeg", "image/png", "image/gif"]

/-- Filesystem effects of the controller that matter for cleanup. -/
inductive FsEffect
  | writeTemp (p : String)
  | unlinkTemp (p : String)
deriving DecidableEq, Repr

/-- An HTTP error response: message and status code. -/
structure HttpErrorResp where
  message : String
  status : Nat
deriving DecidableEq, Repr

/-- What the controller hands back to the framework. -/
inductive ControllerResult
  | ok (body : String)
  | err (e : HttpErrorResp)
deriving DecidableEq, Repr

/-- `HttpStatus.BAD_REQUEST`. -/
def HTTP_BAD_REQUEST : Nat := 400

/-- `HttpStatus.INTERNAL_SERVER_ERROR`. -/
def HTTP_INTERNAL_SERVER_ERROR : Nat := 500

/-- The temporary upload path `${uploadsDir}/${Date.now()}-${originalname}`
(the timestamp prefix is abstracted away; no claim depends on it). -/
def tempPath (originalname : String) : String := "uploads/" ++ originalname

/-- The controller's `uploadToTwitter` handler. `service` is the outcome of
the service call (`.ok` with the created post body, `.error` with the thrown
message) and `unlinkResult` the outcome of `fs.promises.unlink` on the temp
file. Control flow follows the source: the missing-source check throws a 400
before the `try`; everything inside the `try` — including the 400
`HttpException` built for an unsupported MIME type — is caught by the
`catch`, which rethrows the message with status 500; the unlink runs only
after a successful service call, and its own failure is caught by the same
`catch`. The effect list records temp-file writes and unlink attempts in
order. -/
def controllerUpload (req : InboundRequest) (service : Except String String)
    (unlinkResult : Except String Unit) : ControllerResult × List FsEffect :=
  if !jsTruthyStr req.videoUrl && req.file.isNone then
    (ControllerResult.err
      { message := "Either video URL or file must be provided", status := HTTP_BAD_REQUEST }, [])
  else
    match req.file with
    | some f =>
      if !(allowedMimeTypes.contains f.mimetype) then
        (ControllerResult.err
          { message := "Unsupported file type. Only MP4, QuickTime videos, JPEG, PNG, and GIF are allowed",
            status := HTTP_INTERNAL_SERVER_ERROR }, [])
      else
        match service with
        | Except.error m =>
          (ControllerResult.err { message := m, status := HTTP_INTERNAL_SERVER_ERROR },
            [FsEffect.writeTemp (tempPath f.originalname)])
        | Except.ok r =>
          match unlinkResult with
          | Except.ok _ =>
            (ControllerResult.ok r,
              [FsEffect.writeTemp (tempPath f.originalname),
               FsEffect.unlinkTemp (tempPath f.originalname)])
          | Except.error m =>
            (ControllerResult.err { message := m, status := HTTP_INTERNAL_SERVER_ERROR },
              [FsEffect.writeTemp (tempPath f.originalname),
               FsEffect.unlinkTemp (tempPath f.originalname)])
    | none =>
      match service with
      | Except.ok r => (ControllerResult.ok r, [])
      | Except.error m =>
        (ControllerResult.err { message := m, status := HTTP_INTERNAL_SERVER_ERROR }, [])

/-! ## Concrete runs used by counterexamples and witnesses -/

/-- Responses for the C3 counterexample: the first poll is pending with a
30 second hint, the second reports success. -/
def c3exResp : Nat → MediaStatus :=
  fun k => if k = 0 then { state := some ProcState.in_progress, check_after_secs := some 30 }
           else { state := some ProcState.succeeded, check_after_secs := none }

/-- Durations for the C3 counterexample: the first STATUS call takes 299
seconds (the STATUS requests are sent without an HTTP timeout). -/
def c3exDur : Nat → Nat := fun k => if k = 0 then 299000 else 0

/-- Responses for the C4 counterexample: a failed state, then success. -/
def c4exResp : Nat → MediaStatus :=
  fun k => if k = 0 then { state := some ProcState.failed, check_after_secs := none }
           else { state := some ProcState.succeeded, check_after_secs := none }

/-- Durations for the C4 counterexample: instantaneous calls. -/
def c4exDur : Nat → Nat := fun _ => 0

/-- A response stream in which every poll reports a failed state. -/
def constFailedResp : Nat → MediaStatus :=
  fun _ => { state := some ProcState.failed, check_after_secs := none }

/-- Zero call durations. -/
def zeroDur : Nat → Nat := fun _ => 0

/-- Attempt outcomes for C5: every `performUpload` attempt hits a 429. -/
def c5exAttempts : Nat → AttemptOutcome := fun _ => AttemptOutcome.rateLimited

/-- Config for the C7 counterexample: consumer pair present, access token
and secret absent. -/
def c7Config : TwitterConfig :=
  { consumerKey := some "ck", consumerSecret := some "cs",
    accessToken := none, accessTokenSecret := none }

/-! ## Base64 round trip -/

/-- Decoding an alphabet character recovers the sextet it encodes. -/
theorem charToSext_sextToChar : ∀ s, s < 64 → charToSext (sextToChar s) = some s := by decide

/-- Alphabet characters are never the padding character. -/
theorem sextToChar_ne_pad : ∀ s, s < 64 → sextToChar s ≠ '=' := by decide

/-- `b64DecodeChars` is a left inverse of `b64EncodeBytes` on byte lists. -/
theorem b64_roundtrip :
    ∀ (l : List Nat), (∀ b ∈ l, b < 256) → b64DecodeChars (b64EncodeBytes l) = some l := by
  intro l
  induction l using b64EncodeBytes.induct with
  | case1 =>
    intro _
    rfl
  | case2 a =>
    intro h
    have ha : a < 256 := h a (by simp)
    have h0 : a * 16 / 64 < 64 := by omega
    have h1 : a * 16 % 64 < 64 := by omega
    simp only [b64EncodeBytes, b64DecodeChars,
      charToSext_sextToChar _ h0, charToSext_sextToChar _ h1, if_true]
    have e : a * 16 / 64 * 64 + a * 16 % 64 = a * 16 := by omega
    rw [e, if_pos (And.intro trivial trivial)]
    simp only [Option.some.injEq, List.cons.injEq, and_true]
    omega
  | case3 a b =>
    intro h
    have ha : a < 256 := h a (by simp)
    have hb : b < 256 := h b (by simp)
    have h0 : (a * 1024 + b * 4) / 4096 < 64 := by omega
    have h1 : (a * 1024 + b * 4) / 64 % 64 < 64 := by omega
    have h2 : (a * 1024 + b * 4) % 64 < 64 := by omega
    simp only [b64EncodeBytes, b64DecodeChars,
      charToSext_sextToChar _ h0, charToSext_sextToChar _ h1, charToSext_sextToChar _ h2,
      if_neg (sextToChar_ne_pad _ h2), if_true]
    simp only [Option.some.injEq, List.cons.injEq, and_true]
    constructor
    · omega
    · omega
  | case4 a b c rest ih =>
    intro h
    have ha : a < 256 := h a (by simp)
    have hb : b < 256 := h b (by simp)
    have hc : c < 256 := h c (by simp)
    have hrest : ∀ x ∈ rest, x < 256 := fun x hx => h x (by simp [hx])
    have h0 : (a * 65536 + b * 256 + c) / 262144 < 64 := by omega
    have h1 : (a * 65536 + b * 256 + c) / 4096 % 64 < 64 := by omega
    have h2 : (a * 65536 + b * 256 + c) / 64 % 64 < 64 := by omega
    have h3 : (a * 65536 + b * 256 + c) % 64 < 64 := by omega
    simp only [b64EncodeBytes, b64DecodeChars,
      charToSext_sextToChar _ h0, charToSext_sextToChar _ h1, charToSext_sextToChar _ h2,
      charToSext_sextToChar _ h3,
      if_neg (sextToChar_ne_pad _ h2), if_neg (sextToChar_ne_pad _ h3),
      ih hrest]
    simp only [Option.some.injEq, List.cons.injEq, and_true]
    refine ⟨by omega, by omega, by omega⟩

/-! ## Structure of the APPEND loop -/

/-- Ceiling-division step: removing one full chunk from a positive remainder
lowers the ceiling count by one. -/
theorem ceil_step (m : Nat) (hm : 0 < m) :
    (m + chunkSize - 1) / chunkSize = (m - chunkSize + chunkSize - 1) / chunkSize + 1 := by
  have hC : 0 < chunkSize := by decide
  rcases Nat.lt_or_ge m chunkSize with hlt | hge
  · have h1 : m - chunkSize = 0 := by omega
    have h2 : m + chunkSize - 1 = (m - 1) + chunkSize := by omega
    rw [h1, h2, Nat.add_div_right _ hC, Nat.div_eq_of_lt (show m - 1 < chunkSize by omega)]
    rw [Nat.div_eq_of_lt (show 0 + chunkSize - 1 < chunkSize by omega)]
  · have h2 : m + chunkSize - 1 = (m - chunkSize + chunkSize - 1) + chunkSize := by omega
    rw [h2, Nat.add_div_right _ hC]

/-- With fuel covering the remaining byte count, the loop starting at offset
`i` issues one APPEND per started chunk of the remaining `n - i` bytes. -/
theorem appendLoop_length (mid : String) (d : List Nat) :
    ∀ (fuel n i s : Nat), n - i ≤ fuel →
      (appendLoop mid d n fuel i s).length = (n - i + chunkSize - 1) / chunkSize := by
  intro fuel
  induction fuel with
  | zero =>
    intro n i s h
    have hC : 0 < chunkSize := by decide
    rw [Nat.div_eq_of_lt (show n - i + chunkSize - 1 < chunkSize by omega)]
    rfl
  | succ k ih =>
    intro n i s h
    have hC : 0 < chunkSize := by decide
    simp only [appendLoop]
    by_cases hin : i < n
    · rw [if_pos hin]
      simp only [List.length_cons]
      rw [ih n (i + chunkSize) (s + 1) (by omega)]
      have e1 : n - (i + chunkSize) = n - i - chunkSize := by omega
      rw [e1, ← ceil_step (n - i) (by omega)]
    · rw [if_neg hin]
      rw [Nat.div_eq_of_lt (show n - i + chunkSize - 1 < chunkSize by omega)]
      rfl

/-- The segment indices of the loop's calls count up from `s` without gaps. -/
theorem appendLoop_segments (mid : String) (d : List Nat) :
    ∀ (fuel n i s : Nat),
      (appendLoop mid d n fuel i s).map (fun c => c.segment_index) =
        List.range' s (appendLoop mid d n fuel i s).length := by
  intro fuel
  induction fuel with
  | zero =>
    intro n i s
    rfl
  | succ k ih =>
    intro n i s
    simp only [appendLoop]
    by_cases hin : i < n
    · rw [if_pos hin]
      simp only [List.map_cons, List.length_cons]
      rw [ih n (i + chunkSize) (s + 1)]
      rw [List.range'_succ]
    · rw [if_neg hin]
      rfl

/-- Undoing the per-chunk base64 encoding of the loop's calls recovers the
raw slices visited by the same loop. -/
theorem appendLoop_decode (mid : String) (d : List Nat) (hb : ∀ b ∈ d, b < 256) :
    ∀ (fuel n i s : Nat),
      (appendLoop mid d n fuel i s).map (fun c => (b64DecodeChars c.media).getD []) =
        chunkLoop d n fuel i := by
  intro fuel
  induction fuel with
  | zero =>
    intro n i s
    rfl
  | succ k ih =>
    intro n i s
    simp only [appendLoop, chunkLoop]
    by_cases hin : i < n
    · rw [if_pos hin, if_pos hin]
      simp only [List.map_cons]
      rw [ih n (i + chunkSize) (s + 1)]
      congr 1
      rw [b64_roundtrip]
      · rfl
      · intro b hbch
        exact hb b (List.mem_of_mem_drop (List.mem_of_mem_take hbch))
    · rw [if_neg hin, if_neg hin]
      rfl

/-- Concatenating the slices from offset `i` onwards gives back the bytes
from offset `i` onwards. -/
theorem chunkLoop_flatten (d : List Nat) :
    ∀ (fuel i : Nat), d.length - i ≤ fuel →
      (chunkLoop d d.length fuel i).flatten = d.drop i := by
  intro fuel
  induction fuel with
  | zero =>
    intro i h
    rw [List.drop_eq_nil_of_le (by omega)]
    rfl
  | succ k ih =>
    intro i h
    have hC : 0 < chunkSize := by decide
    simp only [chunkLoop]
    by_cases hin : i < d.length
    · rw [if_pos hin, List.flatten_cons, ih (i + chunkSize) (by omega),
          ← List.drop_drop, List.take_append_drop]
    · rw [if_neg hin, List.drop_eq_nil_of_le (by omega)]
      rfl

/-- Every slice the loop visits is non-empty and at most one chunk long. -/
theorem chunkLoop_mem (d : List Nat) :
    ∀ (fuel i : Nat),
      ∀ ch ∈ chunkLoop d d.length fuel i, ch ≠ [] ∧ ch.length ≤ chunkSize := by
  intro fuel
  induction fuel with
  | zero =>
    intro i ch hch
    simp [chunkLoop] at hch
  | succ k ih =>
    intro i ch hch
    have hC : 0 < chunkSize := by decide
    simp only [chunkLoop] at hch
    by_cases hin : i < d.length
    · rw [if_pos hin] at hch
      rcases List.mem_cons.mp hch with rfl | htl
      · constructor
        · have h1 : 0 < ((d.drop i).take chunkSize).length := by
            rw [List.length_take, List.length_drop]
            omega
          exact List.length_pos.mp h1
        · rw [List.length_take, List.length_drop]
          omega
      · exact ih (i + chunkSize) ch htl
    · rw [if_neg hin] at hch
      simp at hch

/-- Every slice except the last is exactly one chunk long. -/
theorem chunkLoop_dropLast (d : List Nat) :
    ∀ (fuel i : Nat), d.length - i ≤ fuel →
      ∀ ch ∈ (chunkLoop d d.length fuel i).dropLast, ch.length = chunkSize := by
  intro fuel
  induction fuel with
  | zero =>
    intro i h ch hch
    simp [chunkLoop] at hch
  | succ k ih =>
    intro i h ch hch
    have hC : 0 < chunkSize := by decide
    simp only [chunkLoop] at hch
    by_cases hin : i < d.length
    · rw [if_pos hin] at hch
      by_cases hin2 : i + chunkSize < d.length
      · have hk : k ≠ 0 := by omega
        have hne : chunkLoop d d.length k (i + chunkSize) ≠ [] := by
          rcases Nat.exists_eq_succ_of_ne_zero hk with ⟨k2, rfl⟩
          simp only [chunkLoop]
          rw [if_pos hin2]
          exact List.cons_ne_nil _ _
        rw [List.dropLast_cons_of_ne_nil hne] at hch
        rcases List.mem_cons.mp hch with rfl | htl
        · rw [List.length_take, List.length_drop]
          omega
        · exact ih (i + chunkSize) (by omega) ch htl
      · have hnil : chunkLoop d d.length k (i + chunkSize) = [] := by
          cases k with
          | zero => rfl
          | succ k2 =>
            simp only [chunkLoop]
            rw [if_neg hin2]
        rw [hnil] at hch
        simp at hch
    · rw [if_neg hin] at hch
      simp at hch

/-! ## Structure of the poll loop -/

/-- The poll loop makes at most `fuel` STATUS calls. -/
theorem pollLoop_length_le (resp : Nat → MediaStatus) (dur : Nat → Nat) :
    ∀ (fuel a e : Nat), (pollLoop resp dur fuel a e).2.length ≤ fuel := by
  intro fuel
  induction fuel with
  | zero =>
    intro a e
    exact Nat.le_refl 0
  | succ k ih =>
    intro a e
    simp only [pollLoop]
    by_cases h1 : (resp a).state = some ProcState.succeeded
    · rw [if_pos h1]
      simp
    · rw [if_neg h1]
      by_cases h2 : e + dur a > MAX_PROCESSING_TIME
      · rw [if_pos h2]
        simp
      · rw [if_neg h2]
        simpa using Nat.succ_le_succ (ih _ _)

/-- Every STATUS call is issued at an elapsed time of at most the wall-clock
bound plus one maximal wait interval, provided the loop starts that early:
the time bound is checked after each unsuccessful poll, and the wait between
polls is capped at 30 seconds. -/
theorem pollLoop_times_le (resp : Nat → MediaStatus) (dur : Nat → Nat) :
    ∀ (fuel a e : Nat), e ≤ MAX_PROCESSING_TIME + 30000 →
      ∀ t ∈ (pollLoop resp dur fuel a e).2, t ≤ MAX_PROCESSING_TIME + 30000 := by
  intro fuel
  induction fuel with
  | zero =>
    intro a e he t ht
    simp [pollLoop] at ht
  | succ k ih =>
    intro a e he t ht
    simp only [pollLoop] at ht
    by_cases h1 : (resp a).state = some ProcState.succeeded
    · rw [if_pos h1] at ht
      simp at ht
      omega
    · rw [if_neg h1] at ht
      by_cases h2 : e + dur a > MAX_PROCESSING_TIME
      · rw [if_pos h2] at ht
        simp at ht
        omega
      · rw [if_neg h2] at ht
        simp only [List.mem_cons] at ht
        rcases ht with rfl | ht
        · exact he
        · refine ih _ _ ?_ t ht
          have hw : min (checkAfterOrDefault (resp a).check_after_secs) 30 ≤ 30 :=
            Nat.min_le_right _ _
          omega

/-- When the loop runs out of attempts, it has made exactly `fuel` polls. -/
theorem pollLoop_exhausted_length (resp : Nat → MediaStatus) (dur : Nat → Nat) :
    ∀ (fuel a e : Nat), (pollLoop resp dur fuel a e).1 = PollOutcome.attemptsExhausted →
      (pollLoop resp dur fuel a e).2.length = fuel := by
  intro fuel
  induction fuel with
  | zero =>
    intro a e _
    rfl
  | succ k ih =>
    intro a e hout
    simp only [pollLoop] at hout ⊢
    by_cases h1 : (resp a).state = some ProcState.succeeded
    · rw [if_pos h1] at hout
      simp at hout
    · rw [if_neg h1] at hout ⊢
      by_cases h2 : e + dur a > MAX_PROCESSING_TIME
      · rw [if_pos h2] at hout
        simp at hout
      · rw [if_neg h2] at hout ⊢
        simp only [List.length_cons]
        rw [ih _ _ hout]

/-! ## Structure of the retry loop -/

/-- When every attempt is rate limited, the retry loop consumes all its fuel
and ends in the max-retries error, having made `fuel` attempts. -/
theorem retryLoop_allRateLimited (attempts : Nat → AttemptOutcome)
    (h : ∀ k, attempts k = AttemptOutcome.rateLimited) :
    ∀ (fuel rc : Nat), retryLoop attempts fuel rc =
      (UploadResult.failure "Max retries exceeded during Twitter upload", fuel) := by
  intro fuel
  induction fuel with
  | zero =>
    intro rc
    rfl
  | succ k ih =>
    intro rc
    simp only [retryLoop, h rc, ih (rc + 1)]

/-- `validateCredential` succeeds exactly when the credential is present and
truthy. -/
theorem validateCredential_isOk (p : String) (v : Option String) :
    (validateCredential p v).isOk = credPresent v := by
  rcases v with _ | s
  · rfl
  · by_cases hs : s = "" <;>
      simp [validateCredential, credPresent, hs, Except.isOk, Except.toBool]

/-! ## Claims -/

/-- C1: for a video of `S` bytes uploaded with 5 MiB chunks, the number of
APPEND calls equals the ceiling of `S / chunkSize` (for naturals,
`(S + chunkSize - 1) / chunkSize` is exactly that ceiling); an image upload
issues exactly one APPEND call regardless of the file's size. -/
theorem C1_append_counts (mid : String) (data : List Nat) :
    (videoAppendCalls mid data).length = (data.length + chunkSize - 1) / chunkSize ∧
    (imageAppendCalls mid data).length = 1 := by
  constructor
  · rw [videoAppendCalls,
        appendLoop_length mid data data.length data.length 0 0 (by omega)]
    simp
  · rfl

/-- C2: the segment indices carried by a video upload's APPEND calls, in
issue order, are exactly `0, 1, …, n-1` — the range of the call count. -/
theorem C2_segment_indices (mid : String) (data : List Nat) :
    (videoAppendCalls mid data).map (fun c => c.segment_index) =
      List.range (videoAppendCalls mid data).length := by
  rw [List.range_eq_range']
  exact appendLoop_segments mid data data.length data.length 0 0

/-- C3 counterexample: with a first STATUS call that takes 299 seconds and a
30-second server-suggested wait, the second STATUS poll is issued 329 seconds
after the first — past the 5-minute bound — and, because the success check
precedes the time check, the loop returns success rather than raising a
processing-timeout error. -/
theorem C3_counterexample :
    waitForMediaProcessing c3exResp c3exDur = (PollOutcome.success, [0, 329000]) ∧
    MAX_PROCESSING_TIME < 329000 := by
  exact ⟨by decide, by decide⟩

/-- C3 amended: at most 10 STATUS attempts are made, and every attempt is
issued within 5 minutes plus one maximal 30-second wait of the first poll
(the wall-clock bound is only checked after each unsuccessful poll, so one
poll can be issued past the 5-minute mark, and a success on it is still
returned as success); exhausting all 10 attempts raises the max-attempts
error. -/
theorem C3_amended (resp : Nat → MediaStatus) (dur : Nat → Nat) :
    (waitForMediaProcessing resp dur).2.length ≤ MAX_ATTEMPTS ∧
    (∀ t ∈ (waitForMediaProcessing resp dur).2, t ≤ MAX_PROCESSING_TIME + 30000) ∧
    ((waitForMediaProcessing resp dur).1 = PollOutcome.attemptsExhausted →
      (waitForMediaProcessing resp dur).2.length = MAX_ATTEMPTS) :=
  ⟨pollLoop_length_le resp dur MAX_ATTEMPTS 0 0,
   pollLoop_times_le resp dur MAX_ATTEMPTS 0 0 (Nat.zero_le _),
   pollLoop_exhausted_length resp dur MAX_ATTEMPTS 0 0⟩

/-- C3 witness: the amended statement at a concrete run (all polls failed,
instantaneous calls). -/
theorem C3_witness :
    (waitForMediaProcessing constFailedResp zeroDur).2.length ≤ MAX_ATTEMPTS ∧
    (∀ t ∈ (waitForMediaProcessing constFailedResp zeroDur).2,
      t ≤ MAX_PROCESSING_TIME + 30000) ∧
    ((waitForMediaProcessing constFailedResp zeroDur).1 = PollOutcome.attemptsExhausted →
      (waitForMediaProcessing constFailedResp zeroDur).2.length = MAX_ATTEMPTS) :=
  C3_amended constFailedResp zeroDur

/-- C4 counterexample: a STATUS response with state `failed` does not make
the poll loop propagate an error — polling continues, and if a later
response reports success the whole run returns success. -/
theorem C4_counterexample :
    c4exResp 0 = { state := some ProcState.failed, check_after_secs := none } ∧
    (waitForMediaProcessing c4exResp c4exDur).1 = PollOutcome.success := by
  exact ⟨rfl, by decide⟩

/-- C4 amended: a non-succeeded STATUS state (in particular `failed`) does
not by itself terminate the loop; but if no polled response ever reports
success, the loop terminates with an error (time-limit or max-attempts) and
no result is returned. -/
theorem C4_amended (resp : Nat → MediaStatus) (dur : Nat → Nat)
    (h : ∀ k, (resp k).state ≠ some ProcState.succeeded) :
    (waitForMediaProcessing resp dur).1 = PollOutcome.timeExceeded ∨
    (waitForMediaProcessing resp dur).1 = PollOutcome.attemptsExhausted := by
  have main : ∀ (fuel a e : Nat),
      (pollLoop resp dur fuel a e).1 = PollOutcome.timeExceeded ∨
      (pollLoop resp dur fuel a e).1 = PollOutcome.attemptsExhausted := by
    intro fuel
    induction fuel with
    | zero =>
      intro a e
      right
      rfl
    | succ k ih =>
      intro a e
      simp only [pollLoop]
      rw [if_neg (h a)]
      by_cases h2 : e + dur a > MAX_PROCESSING_TIME
      · rw [if_pos h2]
        left
        rfl
      · rw [if_neg h2]
        exact ih _ _
  exact main MAX_ATTEMPTS 0 0

/-- C4 witness: the amended statement at the all-failed response stream. -/
theorem C4_witness :
    (∀ k, (constFailedResp k).state ≠ some ProcState.succeeded) ∧
    ((waitForMediaProcessing constFailedResp zeroDur).1 = PollOutcome.timeExceeded ∨
     (waitForMediaProcessing constFailedResp zeroDur).1 = PollOutcome.attemptsExhausted) :=
  ⟨by intro k; simp [constFailedResp],
   C4_amended constFailedResp zeroDur (by intro k; simp [constFailedResp])⟩

/-- C5 counterexample: when every top-level attempt hits a 429, exactly 3
`performUpload` attempts are made — there are only 3 rate-limit encounters,
and the max-retries error is raised after the 3rd, so no error is raised "on
the 4th rate-limit encounter". -/
theorem C5_counterexample :
    uploadToTwitterModel c5exAttempts =
      (UploadResult.failure "Max retries exceeded during Twitter upload", 3) := by
  rfl

/-- C5 amended: when every attempt is rate limited, the orchestrator gives
up after exactly `MAX_RETRIES = 3` top-level attempts, raising the
max-retries error after the 3rd rate-limit encounter; no 4th attempt or
encounter occurs. -/
theorem C5_amended (attempts : Nat → AttemptOutcome)
    (h : ∀ k, attempts k = AttemptOutcome.rateLimited) :
    uploadToTwitterModel attempts =
      (UploadResult.failure "Max retries exceeded during Twitter upload", MAX_RETRIES) :=
  retryLoop_allRateLimited attempts h MAX_RETRIES 0

/-- C5 witness: the amended statement at the all-rate-limited attempt
stream. -/
theorem C5_witness :
    (∀ k, c5exAttempts k = AttemptOutcome.rateLimited) ∧
    uploadToTwitterModel c5exAttempts =
      (UploadResult.failure "Max retries exceeded during Twitter upload", MAX_RETRIES) :=
  ⟨fun _ => rfl, C5_amended c5exAttempts (fun _ => rfl)⟩

/-- C6: `performUpload` hands `filePathOrUrl` directly to
`uploadVideo`/`uploadImage` and never downloads; a remote URL therefore
fails the local-file existence check with `File not found` instead of being
downloaded first (the private `downloadVideoFromUrl` is never invoked on
this path). -/
theorem C6_code_bug :
    isRemoteUrl "http://example.com/video.mp4" = true ∧
    performUploadSource (fun _ => false) "http://example.com/video.mp4" none =
      Except.error ("File not found: " ++ "http://example.com/video.mp4") := by
  exact ⟨by decide, rfl⟩

/-- C7 counterexample: with the consumer pair present but the access token
absent, the signer constructs successfully, yet a per-call signing operation
fails with a missing-credential error — the absence is detected per call,
not at construction time. -/
theorem C7_counterexample :
    mkService c7Config = Except.ok { consumerKey := "ck", consumerSecret := "cs" } ∧
    perCallTokenLookup c7Config =
      Except.error ("Missing credential: " ++ "twitter.accessToken") := by
  exact ⟨rfl, rfl⟩

/-- C7 amended: construction checks exactly the consumer key and secret,
while every signing call checks the access token and secret anew: each side
succeeds precisely when its own pair of credentials is present and
non-empty. -/
theorem C7_amended (cfg : TwitterConfig) :
    (mkService cfg).isOk = (credPresent cfg.consumerKey && credPresent cfg.consumerSecret) ∧
    (perCallTokenLookup cfg).isOk =
      (credPresent cfg.accessToken && credPresent cfg.accessTokenSecret) := by
  constructor
  · rw [← validateCredential_isOk "twitter.consumerKey" cfg.consumerKey,
        ← validateCredential_isOk "twitter.consumerSecret" cfg.consumerSecret]
    rcases h1 : validateCredential "twitter.consumerKey" cfg.consumerKey with e | ck
    · simp [mkService, h1, Except.isOk, Except.toBool]
    · rcases h2 : validateCredential "twitter.consumerSecret" cfg.consumerSecret with e | cs
      · simp [mkService, h1, h2, Except.isOk, Except.toBool]
      · simp [mkService, h1, h2, Except.isOk, Except.toBool]
  · rw [← validateCredential_isOk "twitter.accessToken" cfg.accessToken,
        ← validateCredential_isOk "twitter.accessTokenSecret" cfg.accessTokenSecret]
    rcases h1 : validateCredential "twitter.accessToken" cfg.accessToken with e | tok
    · simp [perCallTokenLookup, h1, Except.isOk, Except.toBool]
    · rcases h2 : validateCredential "twitter.accessTokenSecret" cfg.accessTokenSecret with e | sec
      · simp [perCallTokenLookup, h1, h2, Except.isOk, Except.toBool]
      · simp [perCallTokenLookup, h1, h2, Except.isOk, Except.toBool]

/-- C8: the controller builds a 400 `HttpException` for an unsupported MIME
type, but it is thrown inside the `try` and the catch-all rethrows the
message with status 500 — the client sees a 500, not the intended 400. -/
theorem C8_code_bug :
    allowedMimeTypes.contains "text/plain" = false ∧
    (controllerUpload
        { videoUrl := none,
          file := some { originalname := "notes.txt", mimetype := "text/plain" } }
        (Except.ok "tid") (Except.ok ())).1 =
      ControllerResult.err
        { message := "Unsupported file type. Only MP4, QuickTime videos, JPEG, PNG, and GIF are allowed",
          status := HTTP_INTERNAL_SERVER_ERROR } ∧
    HTTP_INTERNAL_SERVER_ERROR = 500 := by
  exact ⟨by decide, rfl, rfl⟩

/-- C9 counterexample: when the service call fails after the temporary file
was written, the controller's effect trace contains the write but no unlink
attempt — cleanup is not attempted on the failure exit path. -/
theorem C9_counterexample :
    (controllerUpload
        { videoUrl := none,
          file := some { originalname := "clip.mp4", mimetype := "video/mp4" } }
        (Except.error "upload failed") (Except.ok ())).2 =
      [FsEffect.writeTemp (tempPath "clip.mp4")] ∧
    (controllerUpload
        { videoUrl := none,
          file := some { originalname := "clip.mp4", mimetype := "video/mp4" } }
        (Except.error "upload failed") (Except.ok ())).1 =
      ControllerResult.err { message := "upload failed", status := HTTP_INTERNAL_SERVER_ERROR } := by
  exact ⟨rfl, rfl⟩

/-- C9 amended: for an upload that wrote a temporary file, removal is
attempted only on the success path; on a failure exit no removal is
attempted and the file is left behind (on the success path a failing unlink
is caught by the same catch-all and surfaces as a 500). -/
theorem C9_amended (f : MulterFile) (r m : String) (ur : Except String Unit)
    (hmime : allowedMimeTypes.contains f.mimetype = true) :
    (controllerUpload { videoUrl := none, file := some f } (Except.ok r) ur).2 =
      [FsEffect.writeTemp (tempPath f.originalname),
       FsEffect.unlinkTemp (tempPath f.originalname)] ∧
    (controllerUpload { videoUrl := none, file := some f } (Except.error m) ur).2 =
      [FsEffect.writeTemp (tempPath f.originalname)] := by
  have hmem : f.mimetype ∈ allowedMimeTypes := by simpa using hmime
  constructor
  · cases ur with
    | ok u => simp [controllerUpload, jsTruthyStr, hmem]
    | error me => simp [controllerUpload, jsTruthyStr, hmem]
  · simp [controllerUpload, jsTruthyStr, hmem]

/-- C9 witness: the amended statement at a concrete MP4 upload. -/
theorem C9_witness :
    allowedMimeTypes.contains "video/mp4" = true ∧
    ((controllerUpload
        { videoUrl := none,
          file := some { originalname := "clip.mp4", mimetype := "video/mp4" } }
        (Except.ok "tid") (Except.ok ())).2 =
      [FsEffect.writeTemp (tempPath "clip.mp4"), FsEffect.unlinkTemp (tempPath "clip.mp4")] ∧
     (controllerUpload
        { videoUrl := none,
          file := some { originalname := "clip.mp4", mimetype := "video/mp4" } }
        (Except.error "boom") (Except.ok ())).2 =
      [FsEffect.writeTemp (tempPath "clip.mp4")]) :=
  ⟨by decide,
   C9_amended { originalname := "clip.mp4", mimetype := "video/mp4" } "tid" "boom"
     (Except.ok ()) (by decide)⟩

/-- C10: for a non-empty buffer of bytes, the chunk payloads of the video
APPEND calls, after undoing the per-chunk base64 encoding, partition the
buffer exactly: there is at least one chunk, every chunk is non-empty and at
most 5 MiB, every chunk except the last is exactly 5 MiB, and their
concatenation is the original buffer byte for byte. -/
theorem C10_chunk_partition (mid : String) (data : List Nat)
    (hne : data ≠ []) (hb : ∀ b ∈ data, b < 256) :
    (videoAppendCalls mid data).map (fun c => (b64DecodeChars c.media).getD []) ≠ [] ∧
    ((videoAppendCalls mid data).map (fun c => (b64DecodeChars c.media).getD [])).flatten =
      data ∧
    (∀ ch ∈ (videoAppendCalls mid data).map (fun c => (b64DecodeChars c.media).getD []),
      ch ≠ [] ∧ ch.length ≤ chunkSize) ∧
    (∀ ch ∈ ((videoAppendCalls mid data).map
        (fun c => (b64DecodeChars c.media).getD [])).dropLast,
      ch.length = chunkSize) := by
  have hdec : (videoAppendCalls mid data).map (fun c => (b64DecodeChars c.media).getD []) =
      chunkLoop data data.length data.length 0 :=
    appendLoop_decode mid data hb data.length data.length 0 0
  rw [hdec]
  refine ⟨?_, ?_, ?_, ?_⟩
  · intro hnil
    have hf := chunkLoop_flatten data data.length 0 (by omega)
    rw [hnil] at hf
    simp only [List.flatten_nil, List.drop_zero] at hf
    exact hne hf.symm
  · have hf := chunkLoop_flatten data data.length 0 (by omega)
    simpa using hf
  · exact chunkLoop_mem data data.length 0
  · exact chunkLoop_dropLast data data.length 0 (by omega)

/-- C10 witness: the partition statement at a concrete three-byte buffer. -/
theorem C10_witness :
    (([7, 8, 9] : List Nat) ≠ [] ∧ (∀ b ∈ ([7, 8, 9] : List Nat), b < 256)) ∧
    ((videoAppendCalls "m" [7, 8, 9]).map (fun c => (b64DecodeChars c.media).getD []) ≠ [] ∧
     ((videoAppendCalls "m" [7, 8, 9]).map
        (fun c => (b64DecodeChars c.media).getD [])).flatten = [7, 8, 9] ∧
     (∀ ch ∈ (videoAppendCalls "m" [7, 8, 9]).map (fun c => (b64DecodeChars c.media).getD []),
       ch ≠ [] ∧ ch.length ≤ chunkSize) ∧
     (∀ ch ∈ ((videoAppendCalls "m" [7, 8, 9]).map
        (fun c => (b64DecodeChars c.media).getD [])).dropLast,
       ch.length = chunkSize)) :=
  ⟨⟨by decide, by decide⟩, C10_chunk_partition "m" [7, 8, 9] (by decide) (by decide)⟩

end TwitterUpload
